import Mathlib

/-
Verification of the animation pipeline in
`spaceweather/visualisation/animations.py`.

The module defines six entry points (data_globe_gif, connections_globe_gif,
lag_mat_gif_time, lag_network_gif, corr_thresh_gif, cca_ang_gif), each of
which: ensures the output directory and its `images_for_giffing` scratch
subdirectory exist, validates the output file name, iterates the dataset
along one axis rendering one figure per index, saves each figure as
`<index>.png`, re-opens the saved frames, and writes a single looping GIF
with `duration = 100, loop = 0`.

The embedding below models the filesystem as an explicit state (a list of
directories plus an association list from path to file content), renderers
as function parameters returning `Except` (an exception raised by the
external plotting collaborator is a `.error`), and each Python function as
a pure state transformer.  Python integer string formatting (`'%s' % i`)
is modelled by `natStr`, which produces the same decimal digits.
-/

namespace Animations

/-- Decimal digit characters of `n`, most significant first, computed with
structural fuel so that the kernel can evaluate it (`fuel > n` suffices).
Mirrors the output of Python `'%s' % i` for a nonnegative int. -/
def natDigitsAux : Nat → Nat → List Char
  | 0, _ => []
  | fuel+1, n =>
    if n < 10 then [Nat.digitChar n]
    else natDigitsAux fuel (n / 10) ++ [Nat.digitChar (n % 10)]

/-- Decimal string of a natural number, as Python `'%s' % i` renders it. -/
def natStr (n : Nat) : String := ⟨natDigitsAux (n+1) n⟩

/-- Errors surfaced by the pipeline.  `invalidName` is the Python
`ValueError` raised on an extension-only filename; `renderError i` is an
exception raised by the plotting collaborator at axis index `i`;
`indexError` is the `IndexError` xarray raises on an out-of-range integer
selection; `emptyAnimation` is the `IndexError` raised by `images[0]` when
the frame list is empty; `encodeError` is a PIL failure to open a frame. -/
inductive Err where
  | invalidName : Err
  | renderError : Nat → Err
  | indexError : Err
  | emptyAnimation : Err
  | encodeError : Err
  deriving DecidableEq

/-- Content of a file: a single frame image, or a GIF animation holding its
frame sequence, per-frame duration and loop count. -/
inductive Content (Img : Type) where
  | png : Img → Content Img
  | gif : List Img → Nat → Nat → Content Img
  deriving DecidableEq

/-- Filesystem state: the set of existing directories and a map from path
to file content (most recent write first). -/
structure FS (Img : Type) where
  dirs : List String
  files : List (String × Content Img)
  deriving DecidableEq

/-- An initially empty filesystem. -/
def emptyFS {Img : Type} : FS Img := ⟨[], []⟩

/-- `if not os.path.exists(p): os.makedirs(p)` — creates the directory only
when absent, so an existing directory is never an error. -/
def ensureDir {Img : Type} (fs : FS Img) (p : String) : FS Img :=
  if p ∈ fs.dirs then fs else { fs with dirs := p :: fs.dirs }

/-- Writing a file replaces any previous content at the same path. -/
def writeFile {Img : Type} (fs : FS Img) (p : String) (c : Content Img) : FS Img :=
  { fs with files := (p, c) :: fs.files.filter (fun e => e.1 != p) }

/-- Look a path up in an association list of files (most recent first). -/
def lookupFile {Img : Type} : List (String × Content Img) → String → Option (Content Img)
  | [], _ => none
  | e :: rest, p => if e.1 = p then some e.2 else lookupFile rest p

/-- `Image.open p`: returns the image stored at `p` (for a GIF, its first
frame), or nothing when the file does not exist. -/
def openImage {Img : Type} (fs : FS Img) (p : String) : Option Img :=
  match lookupFile fs.files p with
  | some (.png img) => some img
  | some (.gif frames _ _) => frames.head?
  | none => none

/-- `images = [Image.open(n) for n in names]`: open every frame in order;
a missing file is a PIL error. -/
def openAll {Img : Type} (fs : FS Img) : List String → Except Err (List Img)
  | [] => .ok []
  | p :: rest =>
    match openImage fs p with
    | none => .error .encodeError
    | some img => (openAll fs rest).map (fun l => img :: l)

/-- The filename-validation block shared by all six entry points:

    if '.' in filename:
        if len(filename) > 4:
            filename = filename[:-4]   # remove file extension
        else:
            <error>

Returns the resolved base name, or `none` for the error case. -/
def resolveName (filename : String) : Option String :=
  if filename.data.contains '.' then
    if 4 < filename.data.length then some ⟨filename.data.take (filename.data.length - 4)⟩
    else none
  else some filename

/-- `im_filepath + '/%s.png' % i` — the path of the frame for axis index `i`. -/
def frameName (imfp : String) (i : Nat) : String :=
  imfp ++ "/" ++ natStr i ++ ".png"

/-- The encoding step:

    images[0].save(gifPath, save_all=True, append_images=images[1:],
                   duration=100, loop=0)

With zero frames `images[0]` raises (the spec's `EmptyAnimation`); otherwise
one GIF holding all frames in order is written with duration 100, loop 0. -/
def encodeGif {Img : Type} (fs : FS Img) (names : List String) (gifPath : String) :
    FS Img × Except Err Unit :=
  match openAll fs names with
  | .error e => (fs, .error e)
  | .ok [] => (fs, .error .emptyAnimation)
  | .ok (img0 :: rest) => (writeFile fs gifPath (.gif (img0 :: rest) 100 0), .ok ())

/-- The per-frame loop shared by all six entry points: for each axis index,
invoke the renderer (`step` returns the call record it makes together with
the rendered image or the raised error), save the figure as `<i>.png`, and
accumulate the saved names in order.  A renderer error aborts the loop. -/
def frameLoop {Img C : Type} (step : Nat → C × Except Err Img) (imfp : String) :
    List Nat → FS Img → FS Img × List C × Except Err (List String)
  | [], fs => (fs, [], .ok [])
  | i :: rest, fs =>
    match step i with
    | (c, .error e) => (fs, [c], .error e)
    | (c, .ok img) =>
      let nm := frameName imfp i
      let fs1 := writeFile fs nm (.png img)
      let (fs2, cs, out) := frameLoop step imfp rest fs1
      (fs2, c :: cs, out.map (fun ns => nm :: ns))

/-- Result of one entry-point call: the final filesystem, the trace of
render calls made, and the Python-level outcome — `.error e` models an
exception propagating to the caller, `.ok r` a normal return with value `r`
(`none` is Python `None`). -/
structure JobOut (Img C : Type) where
  fs : FS Img
  calls : List C
  ret : Except Err (Option String)

/-- The scratch subdirectory for frame images: `filepath + '/images_for_giffing'`. -/
def imDir (filepath : String) : String := filepath ++ "/images_for_giffing"

/-- The animation artifact path: `filepath + '/%s.gif' % filename` with the
resolved base name. -/
def gifPath (filepath base : String) : String := filepath ++ "/" ++ base ++ ".gif"

/-- The message printed and returned by `connections_globe_gif` on a bad
filename. -/
def errMsg : String := "Error: please input filename without file extension"

/-- The control flow shared verbatim by all six entry points: ensure
`filepath` and `filepath + '/images_for_giffing'` exist, validate the
filename (`raiseOnBadName` distinguishes the five variants that `raise`
from `connections_globe_gif`, which prints and returns the message),
run the frame loop over `range n`, and encode the GIF at
`filepath + '/%s.gif' % filename`. -/
def pipeline {Img C : Type} (filepath filename : String) (raiseOnBadName : Bool)
    (n : Nat) (step : Nat → C × Except Err Img) (fs0 : FS Img) : JobOut Img C :=
  let fs1 := ensureDir fs0 filepath
  let fs2 := ensureDir fs1 (imDir filepath)
  match resolveName filename with
  | none =>
    if raiseOnBadName then ⟨fs2, [], .error .invalidName⟩
    else ⟨fs2, [], .ok (some errMsg)⟩
  | some base =>
    match frameLoop step (imDir filepath) (List.range n) fs2 with
    | (fs3, cs, .error e) => ⟨fs3, cs, .error e⟩
    | (fs3, cs, .ok names) =>
      match encodeGif fs3 names (gifPath filepath base) with
      | (fs4, .error e) => ⟨fs4, cs, .error e⟩
      | (fs4, .ok _) => ⟨fs4, cs, .ok none⟩

/-- The xarray Dataset consumed by `data_globe_gif`: the pipeline reads its
`station` and `time` coordinate arrays (slicing happens inside the renderer,
which receives the whole dataset and the time index `t`). -/
structure Dataset (St Tm : Type) where
  station : List St
  time : List Tm
  deriving DecidableEq

/-- The keyword arguments of one `svg.plot_data_globe(...)` call made by
`data_globe_gif` (the `**kwargs` passthrough is not modelled). -/
structure DataGlobeCall (St Cp Or Tm : Type) where
  ds : Dataset St Tm
  list_of_stations : List St
  list_of_components : List Cp
  t : Nat
  ortho_trans : Or
  daynight : Bool
  colour : Bool
  deriving DecidableEq

/-- The arguments `data_globe_gif` passes to the renderer at axis index `i`,
after defaulting: `list_of_stations` defaults to `ds.station.values`, and
`ortho_trans` defaults to `svg.auto_ortho(list_of_stations)`. -/
def dataGlobeCall {St Cp Or Tm : Type} (auto_ortho : List St → Or)
    (ds : Dataset St Tm) (list_of_stations : Option (List St))
    (list_of_components : List Cp) (ortho_trans : Option Or)
    (daynight colour : Bool) (i : Nat) : DataGlobeCall St Cp Or Tm :=
  let stations := list_of_stations.getD ds.station
  ⟨ds, stations, list_of_components, i, ortho_trans.getD (auto_ortho stations),
    daynight, colour⟩

/-- `data_globe_gif` (animations.py lines 25-113).  `auto_ortho` and
`plot_data_globe` are the external collaborators `svg.auto_ortho` and
`svg.plot_data_globe`; a `.error` from the renderer models an exception. -/
def data_globe_gif {Img St Cp Or Tm : Type} (auto_ortho : List St → Or)
    (plot_data_globe : DataGlobeCall St Cp Or Tm → Except Unit Img)
    (ds : Dataset St Tm) (filepath filename : String)
    (list_of_stations : Option (List St)) (list_of_components : List Cp)
    (ortho_trans : Option Or) (daynight colour : Bool)
    (fs0 : FS Img) : JobOut Img (DataGlobeCall St Cp Or Tm) :=
  pipeline filepath filename true ds.time.length
    (fun i =>
      let c := dataGlobeCall auto_ortho ds list_of_stations list_of_components
        ortho_trans daynight colour i
      (c, (plot_data_globe c).mapError (fun _ => Err.renderError i)))
    fs0

/-- Integer selection along one axis: `ds[dict(axis = i)]` succeeds when
`i` is within the axis cardinality and raises `IndexError` otherwise. -/
def isel1 {A : Type} (len : Nat) (get : Nat → A) (i : Nat) : Except Err A :=
  if i < len then .ok (get i) else .error .indexError

/-- The Dataset consumed by `connections_globe_gif`: coordinates
`first_st`, `win_start`; `adj_coeffs i` is
`adj_mat_ds[dict(win_start = i)].adj_coeffs.values`. -/
structure AdjDataset (St W A : Type) where
  first_st : List St
  win_start : List W
  adj_coeffs : Nat → A

/-- `connections_globe_gif` (animations.py lines 116-194).  On a bad
filename this variant prints the error message and returns it as a string
instead of raising.  The renderer receives the adjacency slice, the station
list, the window-start value `list_of_win_start[i]`, the orientation and
the day/night flag. -/
def connections_globe_gif {Img St W Or A : Type} (auto_ortho : List St → Or)
    (plot_connections_globe : A → List St → Option W → Or → Bool → Except Unit Img)
    (adj_mat_ds : AdjDataset St W A) (filepath filename : String)
    (ortho_trans : Option Or) (daynight : Bool)
    (fs0 : FS Img) : JobOut Img Nat :=
  let list_of_stations := adj_mat_ds.first_st
  let num_win := adj_mat_ds.win_start.length
  let ortho := ortho_trans.getD (auto_ortho list_of_stations)
  pipeline filepath filename false num_win
    (fun i =>
      (i, match isel1 adj_mat_ds.win_start.length adj_mat_ds.adj_coeffs i with
          | .error e => .error e
          | .ok am =>
            (plot_connections_globe am list_of_stations adj_mat_ds.win_start[i]?
              ortho daynight).mapError (fun _ => Err.renderError i)))
    fs0

/-- The Dataset consumed by `lag_mat_gif_time`: coordinates `time_win`,
`lag`, `win_start` (plus the station pair, not selected on); `slice i j k`
is the sub-dataset at `time_win = i, lag = j, win_start = k`. -/
structure LagDataset (Tw Lg W Slc : Type) where
  time_win : List Tw
  lag : List Lg
  win_start : List W
  slice : Nat → Nat → Nat → Slc

/-- `lag_ds[dict(time_win = i, lag = j, win_start = k)]`: integer selection
on three axes at once; any out-of-range index raises `IndexError`. -/
def LagDataset.isel {Tw Lg W Slc : Type} (d : LagDataset Tw Lg W Slc)
    (i j k : Nat) : Except Err Slc :=
  if i < d.time_win.length ∧ j < d.lag.length ∧ k < d.win_start.length then
    .ok (d.slice i j k)
  else .error .indexError

/-- `lag_mat_gif_time` (animations.py lines 197-259): iterates over the
`time_win` axis and renders `lag_ds[dict(time_win = i, lag = 0, win_start = i)]`
for each `i`.  The call trace records the selection triple requested. -/
def lag_mat_gif_time {Img Tw Lg W Slc : Type}
    (plot_lag_mat_time : Slc → Except Unit Img)
    (lag_ds : LagDataset Tw Lg W Slc) (filepath filename : String)
    (fs0 : FS Img) : JobOut Img (Nat × Nat × Nat) :=
  let num_win := lag_ds.time_win.length
  pipeline filepath filename true num_win
    (fun i =>
      ((i, 0, i), match lag_ds.isel i 0 i with
        | .error e => .error e
        | .ok lm => (plot_lag_mat_time lm).mapError (fun _ => Err.renderError i)))
    fs0

/-- A Dataset sliced along its `win_start` axis, as consumed by
`lag_network_gif` and `corr_thresh_gif`. -/
structure WinStartDataset (W Slc : Type) where
  win_start : List W
  slice : Nat → Slc

/-- `lag_network_gif` (animations.py lines 262-324): iterates the
`win_start` axis, rendering `adj_matrix_ds[dict(win_start = i)]`. -/
def lag_network_gif {Img W Slc : Type} (plot_lag_network : Slc → Except Unit Img)
    (adj_matrix_ds : WinStartDataset W Slc) (filepath filename : String)
    (fs0 : FS Img) : JobOut Img Nat :=
  let num_win := adj_matrix_ds.win_start.length
  pipeline filepath filename true num_win
    (fun i =>
      (i, match isel1 adj_matrix_ds.win_start.length adj_matrix_ds.slice i with
          | .error e => .error e
          | .ok am => (plot_lag_network am).mapError (fun _ => Err.renderError i)))
    fs0

/-- `corr_thresh_gif` (animations.py lines 327-390): iterates the
`win_start` axis, rendering `corr_thresh_ds[dict(win_start = i)]`. -/
def corr_thresh_gif {Img W Slc : Type} (plot_corr_thresh : Slc → Except Unit Img)
    (corr_thresh_ds : WinStartDataset W Slc) (filepath filename : String)
    (fs0 : FS Img) : JobOut Img Nat :=
  let num_win := corr_thresh_ds.win_start.length
  pipeline filepath filename true num_win
    (fun i =>
      (i, match isel1 corr_thresh_ds.win_start.length corr_thresh_ds.slice i with
          | .error e => .error e
          | .ok clm => (plot_corr_thresh clm).mapError (fun _ => Err.renderError i)))
    fs0

/-- A Dataset sliced along its `time` axis, as consumed by `cca_ang_gif`. -/
structure TimeDataset (Tm Slc : Type) where
  time : List Tm
  slice : Nat → Slc

/-- `cca_ang_gif` (animations.py lines 393-458): iterates the `time` axis,
rendering `cca_ang_ds[dict(time = i)]` with the extra `a_b` argument. -/
def cca_ang_gif {Img Tm Slc AB : Type} (plot_cca_ang : Slc → AB → Except Unit Img)
    (cca_ang_ds : TimeDataset Tm Slc) (a_b : AB) (filepath filename : String)
    (fs0 : FS Img) : JobOut Img Nat :=
  let num_times := cca_ang_ds.time.length
  pipeline filepath filename true num_times
    (fun i =>
      (i, match isel1 cca_ang_ds.time.length cca_ang_ds.slice i with
          | .error e => .error e
          | .ok cam => (plot_cca_ang cam a_b).mapError (fun _ => Err.renderError i)))
    fs0

/-- Number of frame-image (PNG) files present in a filesystem. -/
def countPng {Img : Type} (fs : FS Img) : Nat :=
  fs.files.countP (fun e => match e.2 with | .png _ => true | _ => false)

/-- Number of animation (GIF) files present in a filesystem. -/
def countGif {Img : Type} (fs : FS Img) : Nat :=
  fs.files.countP (fun e => match e.2 with | .gif _ _ _ => true | _ => false)

/-- Every GIF file in the filesystem has per-frame duration 100 and loop
count 0. -/
def gifsLoopForever {Img : Type} (fs : FS Img) : Prop :=
  ∀ p frames d l, (p, Content.gif frames d l) ∈ fs.files → d = 100 ∧ l = 0

/-- The filesystem obtained by saving the frames for the axis indices in
`l`, in order (the cumulative effect of `fig.savefig(im_name)` across the
loop when the renderer yields `f i` at index `i`). -/
def writeAll {Img : Type} (imfp : String) (f : Nat → Img) (fs : FS Img) :
    List Nat → FS Img
  | [] => fs
  | i :: rest => writeAll imfp f (writeFile fs (frameName imfp i) (.png (f i))) rest

end Animations

deriving instance DecidableEq for Except

namespace Animations

theorem digitChar_val : ∀ n, n < 10 → (Nat.digitChar n).toNat - 48 = n := by decide

theorem natDigitsAux_foldl (fuel : Nat) : ∀ n a, n < fuel →
    List.foldl (fun acc c => 10 * acc + (c.toNat - 48)) a (natDigitsAux fuel n)
      = 10 ^ (natDigitsAux fuel n).length * a + n := by
  induction fuel with
  | zero => intro n a h; omega
  | succ fuel ih =>
    intro n a h
    by_cases h10 : n < 10
    · simp [natDigitsAux, h10, digitChar_val n h10]
    · have hdiv : n / 10 < fuel := by
        have := Nat.div_lt_self (by omega : 0 < n) (by omega : 1 < 10)
        omega
      have hmod : n % 10 < 10 := Nat.mod_lt _ (by omega)
      simp only [natDigitsAux, if_neg h10, List.foldl_append, List.length_append,
        List.length_singleton, List.foldl_cons, List.foldl_nil]
      rw [ih (n / 10) a hdiv, digitChar_val (n % 10) hmod]
      have hdm : 10 * (n / 10) + n % 10 = n := Nat.div_add_mod n 10
      rw [pow_succ]
      generalize (10 : Nat) ^ (natDigitsAux fuel (n / 10)).length = P
      ring_nf
      omega

theorem natStr_inj {m n : Nat} (h : natStr m = natStr n) : m = n := by
  have hd : natDigitsAux (m+1) m = natDigitsAux (n+1) n := congrArg String.data h
  have h1 := natDigitsAux_foldl (m+1) m 0 (by omega)
  have h2 := natDigitsAux_foldl (n+1) n 0 (by omega)
  rw [hd] at h1
  simp only [Nat.mul_zero] at h1 h2
  omega

theorem data_append (s t : String) : (s ++ t).data = s.data ++ t.data := by
  cases s; cases t; rfl

theorem frameName_inj {imfp : String} {i j : Nat}
    (h : frameName imfp i = frameName imfp j) : i = j := by
  have hd := congrArg String.data h
  simp only [frameName, data_append, List.append_assoc] at hd
  have h1 := List.append_cancel_left hd
  have h2 := List.append_cancel_left h1
  have h3 := List.append_cancel_right h2
  exact natStr_inj (congrArg String.mk h3)

theorem frameName_ne_gifPath (imfp fp base : String) (i : Nat) :
    frameName imfp i ≠ gifPath fp base := by
  intro h
  have hd := congrArg String.data h
  simp only [frameName, gifPath, data_append] at hd
  have := (List.append_inj' hd (by decide)).2
  exact absurd this (by decide)

end Animations

namespace Animations

theorem ensureDir_files {Img : Type} (fs : FS Img) (p : String) :
    (ensureDir fs p).files = fs.files := by
  unfold ensureDir; split <;> rfl

theorem ensureDir_mem {Img : Type} (fs : FS Img) (p : String) :
    p ∈ (ensureDir fs p).dirs := by
  unfold ensureDir; split
  · assumption
  · exact List.mem_cons_self _ _

theorem ensureDir_of_mem {Img : Type} {fs : FS Img} {p : String}
    (h : p ∈ fs.dirs) : ensureDir fs p = fs := by
  unfold ensureDir; exact if_pos h

theorem ensureDir_dirs_mono {Img : Type} {fs : FS Img} {q : String} (p : String)
    (h : q ∈ fs.dirs) : q ∈ (ensureDir fs p).dirs := by
  unfold ensureDir; split
  · exact h
  · exact List.mem_cons_of_mem _ h

theorem writeFile_dirs {Img : Type} (fs : FS Img) (k : String) (v : Content Img) :
    (writeFile fs k v).dirs = fs.dirs := rfl

theorem lookupFile_none_of {Img : Type} {files : List (String × Content Img)}
    {k : String} (h : ∀ e ∈ files, e.1 ≠ k) : lookupFile files k = none := by
  induction files with
  | nil => rfl
  | cons e rest ih =>
    simp only [lookupFile, if_neg (h e (List.mem_cons_self _ _))]
    exact ih (fun e' he' => h e' (List.mem_cons_of_mem _ he'))

theorem forall_ne_of_lookupFile_none {Img : Type} {files : List (String × Content Img)}
    {k : String} (h : lookupFile files k = none) : ∀ e ∈ files, e.1 ≠ k := by
  induction files with
  | nil => intro e he; cases he
  | cons e rest ih =>
    intro e' he'
    by_cases hk : e.1 = k
    · simp [lookupFile, hk] at h
    · rcases List.mem_cons.mp he' with rfl | hmem
      · exact hk
      · have : lookupFile rest k = none := by
          simpa [lookupFile, if_neg hk] using h
        exact ih this e' hmem

theorem lookupFile_writeFile_self {Img : Type} (fs : FS Img) (k : String)
    (v : Content Img) : lookupFile (writeFile fs k v).files k = some v := by
  simp [writeFile, lookupFile]

theorem lookupFile_filter_ne {Img : Type} (files : List (String × Content Img))
    {k k' : String} (h : k' ≠ k) :
    lookupFile (files.filter (fun e => e.1 != k)) k' = lookupFile files k' := by
  induction files with
  | nil => rfl
  | cons e rest ih =>
    by_cases hk : e.1 = k
    · have hb : (e.1 != k) = false := by simp [hk]
      have hne : e.1 ≠ k' := fun hh => h (by rw [← hh]; exact hk)
      simp [List.filter_cons, hb, lookupFile, hne, ih]
    · have hb : (e.1 != k) = true := by simp [hk]
      by_cases hk' : e.1 = k'
      · simp [List.filter_cons, hb, lookupFile, hk', h]
      · simp [List.filter_cons, hb, lookupFile, hk', ih]

theorem lookupFile_writeFile_ne {Img : Type} (fs : FS Img) {k k' : String}
    (v : Content Img) (h : k' ≠ k) :
    lookupFile (writeFile fs k v).files k' = lookupFile fs.files k' := by
  have hne : k ≠ k' := fun hh => h hh.symm
  simp only [writeFile, lookupFile, if_neg hne]
  exact lookupFile_filter_ne fs.files h

theorem writeFile_files_of_fresh {Img : Type} {fs : FS Img} {k : String}
    (v : Content Img) (h : lookupFile fs.files k = none) :
    (writeFile fs k v).files = (k, v) :: fs.files := by
  have hall := forall_ne_of_lookupFile_none h
  simp only [writeFile]
  congr 1
  exact List.filter_eq_self.mpr (fun e he => by simp [hall e he])

theorem mem_writeFile {Img : Type} {fs : FS Img} {k : String} {v : Content Img}
    {e : String × Content Img} (h : e ∈ (writeFile fs k v).files) :
    e = (k, v) ∨ e ∈ fs.files := by
  rcases List.mem_cons.mp h with rfl | hmem
  · exact Or.inl rfl
  · exact Or.inr (List.mem_of_mem_filter hmem)

end Animations

namespace Animations

theorem frameLoop_dirs {Img C : Type} (step : Nat → C × Except Err Img)
    (imfp : String) : ∀ (l : List Nat) (fs : FS Img),
    (frameLoop step imfp l fs).1.dirs = fs.dirs := by
  intro l
  induction l with
  | nil => intro fs; rfl
  | cons i rest ih =>
    intro fs
    simp only [frameLoop]
    rcases hs : step i with ⟨c, r⟩
    cases r with
    | error e => rfl
    | ok img =>
      simp only
      rw [ih]
      rfl

theorem writeAll_dirs {Img : Type} (imfp : String) (f : Nat → Img) :
    ∀ (l : List Nat) (fs : FS Img), (writeAll imfp f fs l).dirs = fs.dirs := by
  intro l
  induction l with
  | nil => intro fs; rfl
  | cons i rest ih => intro fs; rw [writeAll, ih]; rfl

theorem frameLoop_ok {Img C : Type} (step : Nat → C × Except Err Img)
    (imfp : String) (f : Nat → Img) :
    ∀ (l : List Nat) (fs : FS Img), (∀ i ∈ l, (step i).2 = .ok (f i)) →
    frameLoop step imfp l fs =
      (writeAll imfp f fs l, l.map (fun i => (step i).1),
        .ok (l.map (frameName imfp))) := by
  intro l
  induction l with
  | nil => intro fs _; rfl
  | cons i rest ih =>
    intro fs hok
    have hi : (step i).2 = .ok (f i) := hok i (List.mem_cons_self _ _)
    simp only [frameLoop]
    rcases hs : step i with ⟨c, r⟩
    rw [hs] at hi
    simp only at hi
    subst hi
    simp only
    rw [ih _ (fun j hj => hok j (List.mem_cons_of_mem _ hj))]
    simp only [Except.map, writeAll, List.map_cons]
    rw [hs]

theorem frameLoop_err_at {Img C : Type} (step : Nat → C × Except Err Img)
    (imfp : String) (f : Nat → Img) {j : Nat} {e : Err}
    (herr : (step j).2 = .error e) :
    ∀ (l1 : List Nat) (l2 : List Nat) (fs : FS Img),
    (∀ i ∈ l1, (step i).2 = .ok (f i)) →
    frameLoop step imfp (l1 ++ j :: l2) fs =
      (writeAll imfp f fs l1, l1.map (fun i => (step i).1) ++ [(step j).1],
        .error e) := by
  intro l1
  induction l1 with
  | nil =>
    intro l2 fs _
    simp only [List.nil_append, frameLoop]
    rcases hs : step j with ⟨c, r⟩
    rw [hs] at herr
    simp only at herr
    subst herr
    simp [writeAll]
  | cons i rest ih =>
    intro l2 fs hok
    have hi : (step i).2 = .ok (f i) := hok i (List.mem_cons_self _ _)
    simp only [List.cons_append, frameLoop]
    rcases hs : step i with ⟨c, r⟩
    rw [hs] at hi
    simp only at hi
    subst hi
    simp only [List.append_eq]
    rw [ih _ _ (fun j' hj' => hok j' (List.mem_cons_of_mem _ hj'))]
    simp only [Except.map, writeAll, List.map_cons, List.cons_append]
    rw [hs]

theorem frameLoop_ok_inv {Img C : Type} (step : Nat → C × Except Err Img)
    (imfp : String) : ∀ (l : List Nat) (fs : FS Img) (ns : List String),
    (frameLoop step imfp l fs).2.2 = .ok ns →
    (∀ i ∈ l, ∃ img, (step i).2 = .ok img) ∧
      (frameLoop step imfp l fs).2.1 = l.map (fun i => (step i).1) := by
  intro l
  induction l with
  | nil => intro fs ns _; exact ⟨fun i hi => absurd hi (List.not_mem_nil i), rfl⟩
  | cons i rest ih =>
    intro fs ns hret
    rcases hs : step i with ⟨c, r⟩
    cases r with
    | error e =>
      rw [show (frameLoop step imfp (i :: rest) fs) = (fs, [c], .error e) by
        simp only [frameLoop, hs]] at hret
      cases hret
    | ok img =>
      have hexp : frameLoop step imfp (i :: rest) fs =
          ((frameLoop step imfp rest (writeFile fs (frameName imfp i) (.png img))).1,
           c :: (frameLoop step imfp rest (writeFile fs (frameName imfp i) (.png img))).2.1,
           ((frameLoop step imfp rest (writeFile fs (frameName imfp i) (.png img))).2.2).map
             (fun ns => frameName imfp i :: ns)) := by
        simp only [frameLoop, hs]
      rw [hexp] at hret ⊢
      simp only at hret ⊢
      rcases hout : (frameLoop step imfp rest (writeFile fs (frameName imfp i) (.png img))).2.2 with e' | ns'
      · rw [hout] at hret; cases hret
      · rw [hout] at hret
        have := ih (writeFile fs (frameName imfp i) (.png img)) ns' hout
        refine ⟨?_, ?_⟩
        · intro i' hi'
          rcases List.mem_cons.mp hi' with rfl | hmem
          · exact ⟨img, by rw [hs]⟩
          · exact this.1 i' hmem
        · simp only [List.map_cons]
          rw [this.2, hs]

end Animations

namespace Animations

theorem writeAll_lookup_untouched {Img : Type} (imfp : String) (f : Nat → Img)
    {k : String} : ∀ (l : List Nat) (fs : FS Img),
    (∀ i ∈ l, frameName imfp i ≠ k) →
    lookupFile (writeAll imfp f fs l).files k = lookupFile fs.files k := by
  intro l
  induction l with
  | nil => intro fs _; rfl
  | cons i rest ih =>
    intro fs hne
    rw [writeAll, ih _ (fun j hj => hne j (List.mem_cons_of_mem _ hj))]
    exact lookupFile_writeFile_ne fs _ (fun hh => hne i (List.mem_cons_self _ _) hh.symm)

theorem writeAll_lookup_hit {Img : Type} (imfp : String) (f : Nat → Img)
    {j : Nat} : ∀ (l : List Nat) (fs : FS Img), l.Nodup → j ∈ l →
    lookupFile (writeAll imfp f fs l).files (frameName imfp j) =
      some (.png (f j)) := by
  intro l
  induction l with
  | nil => intro fs _ hj; cases hj
  | cons i rest ih =>
    intro fs hnd hj
    rcases List.mem_cons.mp hj with rfl | hmem
    · have hnotin : j ∉ rest := (List.nodup_cons.mp hnd).1
      rw [writeAll,
        writeAll_lookup_untouched imfp f rest _
          (fun i' hi' hh => hnotin (by rw [← frameName_inj hh]; exact hi'))]
      exact lookupFile_writeFile_self fs _ _
    · exact ih _ (List.nodup_cons.mp hnd).2 hmem

theorem writeAll_files_fresh {Img : Type} (imfp : String) (f : Nat → Img) :
    ∀ (l : List Nat) (fs : FS Img), l.Nodup →
    (∀ i ∈ l, lookupFile fs.files (frameName imfp i) = none) →
    (writeAll imfp f fs l).files =
      (l.reverse.map (fun i => (frameName imfp i, Content.png (f i)))) ++ fs.files := by
  intro l
  induction l with
  | nil => intro fs _ _; simp [writeAll]
  | cons i rest ih =>
    intro fs hnd hfresh
    have hwf : (writeFile fs (frameName imfp i) (.png (f i))).files =
        (frameName imfp i, Content.png (f i)) :: fs.files :=
      writeFile_files_of_fresh _ (hfresh i (List.mem_cons_self _ _))
    rw [writeAll, ih _ (List.nodup_cons.mp hnd).2]
    · rw [hwf]
      simp [List.reverse_cons, List.map_append]
    · intro i' hi'
      rw [hwf]
      have hne : frameName imfp i ≠ frameName imfp i' := by
        intro hh
        exact (List.nodup_cons.mp hnd).1 (by rw [frameName_inj hh]; exact hi')
      simp only [lookupFile, if_neg hne]
      exact hfresh i' (List.mem_cons_of_mem _ hi')

theorem openAll_frames {Img : Type} (fs : FS Img) (f : Nat → Img) (imfp : String) :
    ∀ (l : List Nat),
    (∀ i ∈ l, lookupFile fs.files (frameName imfp i) = some (.png (f i))) →
    openAll fs (l.map (frameName imfp)) = .ok (l.map f) := by
  intro l
  induction l with
  | nil => intro _; rfl
  | cons i rest ih =>
    intro hlook
    simp only [List.map_cons, openAll, openImage,
      hlook i (List.mem_cons_self _ _)]
    rw [ih (fun j hj => hlook j (List.mem_cons_of_mem _ hj))]
    rfl

theorem encodeGif_ok {Img : Type} (fs : FS Img) (names : List String)
    (p : String) {imgs : List Img} (h : openAll fs names = .ok imgs)
    (hne : imgs ≠ []) :
    encodeGif fs names p = (writeFile fs p (.gif imgs 100 0), .ok ()) := by
  cases imgs with
  | nil => exact absurd rfl hne
  | cons img0 rest => simp only [encodeGif, h]

theorem encodeGif_dirs {Img : Type} (fs : FS Img) (names : List String)
    (p : String) : (encodeGif fs names p).1.dirs = fs.dirs := by
  unfold encodeGif
  rcases h : openAll fs names with e | imgs
  · rfl
  · cases imgs with
    | nil => rfl
    | cons i rest => rfl

end Animations

namespace Animations

theorem pipeline_success {Img C : Type} (fp fn : String) (b : Bool) (n : Nat)
    (step : Nat → C × Except Err Img) (f : Nat → Img) (base : String)
    (fs0 : FS Img) (hf0 : fs0.files = [])
    (hname : resolveName fn = some base)
    (hok : ∀ i, i < n → (step i).2 = .ok (f i))
    (hn : 1 ≤ n) :
    (pipeline fp fn b n step fs0).ret = .ok none ∧
    (pipeline fp fn b n step fs0).calls =
      (List.range n).map (fun i => (step i).1) ∧
    (pipeline fp fn b n step fs0).fs.files =
      (gifPath fp base, Content.gif ((List.range n).map f) 100 0) ::
        ((List.range n).reverse.map
          (fun i => (frameName (imDir fp) i, Content.png (f i)))) := by
  have hf2 : (ensureDir (ensureDir fs0 fp) (imDir fp)).files = [] := by
    rw [ensureDir_files, ensureDir_files, hf0]
  have hloop := frameLoop_ok step (imDir fp) f (List.range n)
    (ensureDir (ensureDir fs0 fp) (imDir fp))
    (fun i hi => hok i (List.mem_range.mp hi))
  have hfiles3 : (writeAll (imDir fp) f (ensureDir (ensureDir fs0 fp) (imDir fp))
      (List.range n)).files =
      (List.range n).reverse.map
        (fun i => (frameName (imDir fp) i, Content.png (f i))) := by
    rw [writeAll_files_fresh (imDir fp) f (List.range n) _ (List.nodup_range n)
      (fun i _ => by rw [hf2]; rfl)]
    rw [hf2, List.append_nil]
  have hlookup : ∀ i ∈ List.range n,
      lookupFile (writeAll (imDir fp) f (ensureDir (ensureDir fs0 fp) (imDir fp))
        (List.range n)).files (frameName (imDir fp) i) = some (.png (f i)) :=
    fun i hi => writeAll_lookup_hit (imDir fp) f (List.range n) _
      (List.nodup_range n) hi
  have hopen := openAll_frames _ f (imDir fp) (List.range n) hlookup
  have hnonempty : (List.range n).map f ≠ [] := by
    simp only [ne_eq, List.map_eq_nil_iff, List.range_eq_nil]
    omega
  have hencode := encodeGif_ok _ ((List.range n).map (frameName (imDir fp)))
    (gifPath fp base) hopen hnonempty
  have hgfresh : lookupFile (writeAll (imDir fp) f
      (ensureDir (ensureDir fs0 fp) (imDir fp)) (List.range n)).files
      (gifPath fp base) = none := by
    rw [hfiles3]
    refine lookupFile_none_of ?_
    intro e he
    rcases List.mem_map.mp he with ⟨i, _, rfl⟩
    exact frameName_ne_gifPath _ _ _ _
  have hgwrite := writeFile_files_of_fresh
    (Content.gif ((List.range n).map f) 100 0) hgfresh
  simp only [pipeline, hname]
  rw [hloop]
  simp only
  rw [hencode]
  simp only
  refine ⟨trivial, trivial, ?_⟩
  rw [hgwrite, hfiles3]

end Animations

namespace Animations

theorem pipeline_render_err {Img C : Type} (fp fn : String) (b : Bool) (n : Nat)
    (step : Nat → C × Except Err Img) (f : Nat → Img) (base : String)
    (fs0 : FS Img) (hf0 : fs0.files = [])
    (hname : resolveName fn = some base)
    {k : Nat} {e : Err} (hk : k < n)
    (hok : ∀ i, i < k → (step i).2 = .ok (f i))
    (herr : (step k).2 = .error e) :
    (pipeline fp fn b n step fs0).ret = .error e ∧
    (pipeline fp fn b n step fs0).calls =
      (List.range k).map (fun i => (step i).1) ++ [(step k).1] ∧
    (pipeline fp fn b n step fs0).fs.files =
      (List.range k).reverse.map
        (fun i => (frameName (imDir fp) i, Content.png (f i))) := by
  have hf2 : (ensureDir (ensureDir fs0 fp) (imDir fp)).files = [] := by
    rw [ensureDir_files, ensureDir_files, hf0]
  obtain ⟨m, rfl⟩ : ∃ m, n = k + (m + 1) := ⟨n - k - 1, by omega⟩
  have hsplit : List.range (k + (m + 1)) =
      List.range k ++ k :: ((List.range m).map (fun x => k + Nat.succ x)) := by
    rw [List.range_add k (m + 1), List.range_succ_eq_map, List.map_cons]
    simp
  have hloop := frameLoop_err_at step (imDir fp) f herr (List.range k)
    ((List.range m).map (fun x => k + Nat.succ x))
    (ensureDir (ensureDir fs0 fp) (imDir fp))
    (fun i hi => hok i (List.mem_range.mp hi))
  have hfiles3 : (writeAll (imDir fp) f (ensureDir (ensureDir fs0 fp) (imDir fp))
      (List.range k)).files =
      (List.range k).reverse.map
        (fun i => (frameName (imDir fp) i, Content.png (f i))) := by
    rw [writeAll_files_fresh (imDir fp) f (List.range k) _ (List.nodup_range k)
      (fun i _ => by rw [hf2]; rfl)]
    rw [hf2, List.append_nil]
  simp only [pipeline, hname]
  rw [hsplit, hloop]
  exact ⟨rfl, rfl, hfiles3⟩

theorem pipeline_empty {Img C : Type} (fp fn : String) (b : Bool)
    (step : Nat → C × Except Err Img) (base : String) (fs0 : FS Img)
    (hname : resolveName fn = some base) :
    pipeline fp fn b 0 step fs0 =
      ⟨ensureDir (ensureDir fs0 fp) (imDir fp), [], .error .emptyAnimation⟩ := by
  simp only [pipeline, hname]
  rfl

theorem pipeline_dirs {Img C : Type} (fp fn : String) (b : Bool) (n : Nat)
    (step : Nat → C × Except Err Img) (fs0 : FS Img) :
    (pipeline fp fn b n step fs0).fs.dirs =
      (ensureDir (ensureDir fs0 fp) (imDir fp)).dirs := by
  simp only [pipeline]
  rcases hname : resolveName fn with _ | base <;> simp only [hname]
  · split <;> rfl
  · rcases hl : frameLoop step (imDir fp) (List.range n)
        (ensureDir (ensureDir fs0 fp) (imDir fp)) with ⟨fs3, cs, out⟩
    have hd3 : fs3.dirs = (ensureDir (ensureDir fs0 fp) (imDir fp)).dirs := by
      have h := frameLoop_dirs step (imDir fp) (List.range n)
        (ensureDir (ensureDir fs0 fp) (imDir fp))
      rw [hl] at h
      exact h
    cases out with
    | error e =>
      simp only [hl]
      exact hd3
    | ok names =>
      rcases henc : encodeGif fs3 names (gifPath fp base) with ⟨fs4, r⟩
      have hd4 : fs4.dirs = fs3.dirs := by
        have h := encodeGif_dirs fs3 names (gifPath fp base)
        rw [henc] at h
        exact h
      cases r with
      | error e =>
        simp only [hl, henc]
        exact hd4.trans hd3
      | ok u =>
        simp only [hl, henc]
        exact hd4.trans hd3

end Animations

namespace Animations

theorem openAll_congr {Img : Type} {fs fs' : FS Img} (h : fs.files = fs'.files) :
    ∀ names : List String, openAll fs names = openAll fs' names := by
  intro names
  induction names with
  | nil => rfl
  | cons p rest ih =>
    simp only [openAll, openImage, h, ih]

theorem frameLoop_congr {Img C : Type} (step : Nat → C × Except Err Img)
    (imfp : String) : ∀ (l : List Nat) (fs fs' : FS Img), fs.files = fs'.files →
    (frameLoop step imfp l fs).1.files = (frameLoop step imfp l fs').1.files ∧
    (frameLoop step imfp l fs).2.1 = (frameLoop step imfp l fs').2.1 ∧
    (frameLoop step imfp l fs).2.2 = (frameLoop step imfp l fs').2.2 := by
  intro l
  induction l with
  | nil => intro fs fs' h; exact ⟨h, rfl, rfl⟩
  | cons i rest ih =>
    intro fs fs' h
    rcases hs : step i with ⟨c, r⟩
    cases r with
    | error e =>
      simp only [frameLoop, hs]
      refine ⟨h, ?_, ?_⟩ <;> trivial
    | ok img =>
      have hw : (writeFile fs (frameName imfp i) (.png img)).files
          = (writeFile fs' (frameName imfp i) (.png img)).files := by
        simp only [writeFile, h]
      obtain ⟨h1, h2, h3⟩ := ih (writeFile fs (frameName imfp i) (.png img))
        (writeFile fs' (frameName imfp i) (.png img)) hw
      simp only [frameLoop, hs]
      exact ⟨h1, by rw [h2], by rw [h3]⟩

theorem encodeGif_congr {Img : Type} {fs fs' : FS Img} (h : fs.files = fs'.files)
    (names : List String) (p : String) :
    (encodeGif fs names p).1.files = (encodeGif fs' names p).1.files ∧
    (encodeGif fs names p).2 = (encodeGif fs' names p).2 := by
  simp only [encodeGif, openAll_congr h names]
  rcases ho : openAll fs' names with e | imgs
  · exact ⟨h, rfl⟩
  · cases imgs with
    | nil => exact ⟨h, rfl⟩
    | cons img0 rest => exact ⟨by simp only [writeFile, h], rfl⟩

theorem pipeline_congr {Img C : Type} (fp fn : String) (b : Bool) (n : Nat)
    (step : Nat → C × Except Err Img) (fs0 fs0' : FS Img)
    (h : fs0.files = fs0'.files) :
    (pipeline fp fn b n step fs0).fs.files =
      (pipeline fp fn b n step fs0').fs.files ∧
    (pipeline fp fn b n step fs0).calls = (pipeline fp fn b n step fs0').calls ∧
    (pipeline fp fn b n step fs0).ret = (pipeline fp fn b n step fs0').ret := by
  have h2 : (ensureDir (ensureDir fs0 fp) (imDir fp)).files
      = (ensureDir (ensureDir fs0' fp) (imDir fp)).files := by
    rw [ensureDir_files, ensureDir_files, ensureDir_files, ensureDir_files, h]
  simp only [pipeline]
  rcases hname : resolveName fn with _ | base <;> simp only [hname]
  · split <;> refine ⟨h2, ?_, ?_⟩ <;> trivial
  · obtain ⟨hfeq, hceq, hoeq⟩ := frameLoop_congr step (imDir fp) (List.range n) _ _ h2
    rcases hl : frameLoop step (imDir fp) (List.range n)
        (ensureDir (ensureDir fs0 fp) (imDir fp)) with ⟨fs3, cs, out⟩
    rcases hl' : frameLoop step (imDir fp) (List.range n)
        (ensureDir (ensureDir fs0' fp) (imDir fp)) with ⟨fs3', cs', out'⟩
    rw [hl, hl'] at hfeq hceq hoeq
    simp only at hfeq hceq hoeq
    subst hceq
    cases out with
    | error e =>
      cases out' with
      | error e' =>
        obtain rfl : e = e' := by injection hoeq
        simp only
        refine ⟨hfeq, ?_, ?_⟩ <;> trivial
      | ok ns' => cases hoeq
    | ok names =>
      cases out' with
      | error e' => cases hoeq
      | ok names' =>
        obtain rfl : names = names' := by injection hoeq
        obtain ⟨hef, her⟩ := encodeGif_congr hfeq names (gifPath fp base)
        rcases he : encodeGif fs3 names (gifPath fp base) with ⟨fs4, r⟩
        rcases he' : encodeGif fs3' names (gifPath fp base) with ⟨fs4', r'⟩
        rw [he, he'] at hef her
        simp only at hef her
        subst her
        simp only [he, he']
        cases r with
        | error e => refine ⟨hef, ?_, ?_⟩ <;> trivial
        | ok u => refine ⟨hef, ?_, ?_⟩ <;> trivial

theorem pipeline_ret_ok {Img C : Type} {fp fn : String} {b : Bool} {n : Nat}
    {step : Nat → C × Except Err Img} {fs0 : FS Img} {r : Option String}
    (h : (pipeline fp fn b n step fs0).ret = .ok r) :
    r = none ∨ (b = false ∧ resolveName fn = none ∧ r = some errMsg) := by
  revert h
  simp only [pipeline]
  rcases hname : resolveName fn with _ | base <;> simp only [hname]
  · cases b with
    | false =>
      simp only [Bool.false_eq_true, if_false]
      intro h
      right
      refine ⟨by trivial, by trivial, ?_⟩
      injection h with h'
      exact h'.symm
    | true =>
      simp only [if_true]
      intro h
      cases h
  · rcases hl : frameLoop step (imDir fp) (List.range n)
        (ensureDir (ensureDir fs0 fp) (imDir fp)) with ⟨fs3, cs, out⟩
    cases out with
    | error e => simp only; intro h; cases h
    | ok names =>
      rcases he : encodeGif fs3 names (gifPath fp base) with ⟨fs4, r'⟩
      simp only [he]
      cases r' with
      | error e => simp only; intro h; cases h
      | ok u =>
        simp only
        intro h
        left
        injection h with h'
        exact h'.symm

theorem frameLoop_calls_mem {Img C : Type} (step : Nat → C × Except Err Img)
    (imfp : String) : ∀ (l : List Nat) (fs : FS Img) (c : C),
    c ∈ (frameLoop step imfp l fs).2.1 → ∃ i ∈ l, c = (step i).1 := by
  intro l
  induction l with
  | nil => intro fs c hc; cases hc
  | cons i rest ih =>
    intro fs c hc
    rcases hs : step i with ⟨ci, r⟩
    cases r with
    | error e =>
      rw [show frameLoop step imfp (i :: rest) fs = (fs, [ci], .error e) by
        simp only [frameLoop, hs]] at hc
      rcases List.mem_singleton.mp hc with rfl
      exact ⟨i, List.mem_cons_self _ _, by rw [hs]⟩
    | ok img =>
      rw [show (frameLoop step imfp (i :: rest) fs).2.1 =
          ci :: (frameLoop step imfp rest
            (writeFile fs (frameName imfp i) (.png img))).2.1 by
        simp only [frameLoop, hs]] at hc
      rcases List.mem_cons.mp hc with rfl | hmem
      · exact ⟨i, List.mem_cons_self _ _, by rw [hs]⟩
      · obtain ⟨j, hj, hcj⟩ := ih _ c hmem
        exact ⟨j, List.mem_cons_of_mem _ hj, hcj⟩

theorem pipeline_calls_mem {Img C : Type} {fp fn : String} {b : Bool} {n : Nat}
    {step : Nat → C × Except Err Img} {fs0 : FS Img} {c : C}
    (h : c ∈ (pipeline fp fn b n step fs0).calls) :
    ∃ i, i < n ∧ c = (step i).1 := by
  revert h
  simp only [pipeline]
  rcases hname : resolveName fn with _ | base <;> simp only [hname]
  · split <;> intro h <;> cases h
  · rcases hl : frameLoop step (imDir fp) (List.range n)
        (ensureDir (ensureDir fs0 fp) (imDir fp)) with ⟨fs3, cs, out⟩
    have hcs : ∀ c' ∈ cs, ∃ i ∈ List.range n, c' = (step i).1 := by
      intro c' hc'
      refine frameLoop_calls_mem step (imDir fp) (List.range n)
        (ensureDir (ensureDir fs0 fp) (imDir fp)) c' ?_
      rw [hl]
      exact hc'
    cases out with
    | error e =>
      simp only
      intro h
      obtain ⟨i, hi, hci⟩ := hcs c h
      exact ⟨i, List.mem_range.mp hi, hci⟩
    | ok names =>
      rcases he : encodeGif fs3 names (gifPath fp base) with ⟨fs4, r'⟩
      simp only [he]
      cases r' with
      | error e =>
        simp only
        intro h
        obtain ⟨i, hi, hci⟩ := hcs c h
        exact ⟨i, List.mem_range.mp hi, hci⟩
      | ok u =>
        simp only
        intro h
        obtain ⟨i, hi, hci⟩ := hcs c h
        exact ⟨i, List.mem_range.mp hi, hci⟩

end Animations

namespace Animations

theorem frameLoop_mem_files {Img C : Type} (step : Nat → C × Except Err Img)
    (imfp : String) : ∀ (l : List Nat) (fs : FS Img) (e : String × Content Img),
    e ∈ (frameLoop step imfp l fs).1.files →
    e ∈ fs.files ∨ ∃ img, e.2 = Content.png img := by
  intro l
  induction l with
  | nil => intro fs e he; exact Or.inl he
  | cons i rest ih =>
    intro fs e he
    rcases hs : step i with ⟨c, r⟩
    cases r with
    | error er =>
      rw [show (frameLoop step imfp (i :: rest) fs).1 = fs by
        simp only [frameLoop, hs]] at he
      exact Or.inl he
    | ok img =>
      rw [show (frameLoop step imfp (i :: rest) fs).1 =
          (frameLoop step imfp rest
            (writeFile fs (frameName imfp i) (.png img))).1 by
        simp only [frameLoop, hs]] at he
      rcases ih _ e he with hin | hpng
      · rcases mem_writeFile hin with rfl | hin'
        · exact Or.inr ⟨img, rfl⟩
        · exact Or.inl hin'
      · exact Or.inr hpng

theorem encodeGif_mem_files {Img : Type} (fs : FS Img) (names : List String)
    (p : String) (e : String × Content Img)
    (h : e ∈ (encodeGif fs names p).1.files) :
    e ∈ fs.files ∨ ∃ imgs, e.2 = Content.gif imgs 100 0 := by
  revert h
  unfold encodeGif
  rcases ho : openAll fs names with er | imgs
  · intro h; exact Or.inl h
  · cases imgs with
    | nil => intro h; exact Or.inl h
    | cons img0 rest =>
      intro h
      rcases mem_writeFile h with rfl | hin
      · exact Or.inr ⟨img0 :: rest, rfl⟩
      · exact Or.inl hin

theorem pipeline_mem_files {Img C : Type} {fp fn : String} {b : Bool} {n : Nat}
    {step : Nat → C × Except Err Img} {fs0 : FS Img} {e : String × Content Img}
    (h : e ∈ (pipeline fp fn b n step fs0).fs.files) :
    e ∈ fs0.files ∨ (∃ img, e.2 = Content.png img) ∨
      ∃ imgs, e.2 = Content.gif imgs 100 0 := by
  revert h
  simp only [pipeline]
  rcases hname : resolveName fn with _ | base <;> simp only [hname]
  · split <;> intro h <;>
      exact Or.inl (by rwa [ensureDir_files, ensureDir_files] at h)
  · rcases hl : frameLoop step (imDir fp) (List.range n)
        (ensureDir (ensureDir fs0 fp) (imDir fp)) with ⟨fs3, cs, out⟩
    have h3 : ∀ e' : String × Content Img, e' ∈ fs3.files →
        e' ∈ fs0.files ∨ ∃ img, e'.2 = Content.png img := by
      intro e' he'
      have hm := frameLoop_mem_files step (imDir fp) (List.range n)
        (ensureDir (ensureDir fs0 fp) (imDir fp)) e' (by rw [hl]; exact he')
      rcases hm with hin | hpng
      · exact Or.inl (by rwa [ensureDir_files, ensureDir_files] at hin)
      · exact Or.inr hpng
    cases out with
    | error er =>
      simp only
      intro h
      rcases h3 e h with hin | hpng
      · exact Or.inl hin
      · exact Or.inr (Or.inl hpng)
    | ok names =>
      rcases he : encodeGif fs3 names (gifPath fp base) with ⟨fs4, r⟩
      simp only [he]
      have h4 : ∀ e' : String × Content Img, e' ∈ fs4.files →
          e' ∈ fs3.files ∨ ∃ imgs, e'.2 = Content.gif imgs 100 0 := by
        intro e' he'
        exact encodeGif_mem_files fs3 names (gifPath fp base) e'
          (by rw [he]; exact he')
      cases r with
      | error er =>
        simp only
        intro h
        rcases h4 e h with hin | hgif
        · rcases h3 e hin with hin' | hpng
          · exact Or.inl hin'
          · exact Or.inr (Or.inl hpng)
        · exact Or.inr (Or.inr hgif)
      | ok u =>
        simp only
        intro h
        rcases h4 e h with hin | hgif
        · rcases h3 e hin with hin' | hpng
          · exact Or.inl hin'
          · exact Or.inr (Or.inl hpng)
        · exact Or.inr (Or.inr hgif)

theorem pipeline_gif_inv {Img C : Type} (fp fn : String) (b : Bool) (n : Nat)
    (step : Nat → C × Except Err Img) (fs0 : FS Img)
    (h : gifsLoopForever fs0) : gifsLoopForever (pipeline fp fn b n step fs0).fs := by
  intro p frames d l hmem
  rcases pipeline_mem_files hmem with hin | hpng | hgif
  · exact h p frames d l hin
  · rcases hpng with ⟨img, himg⟩
    cases himg
  · rcases hgif with ⟨imgs, himg⟩
    injection himg with h1 h2 h3
    exact ⟨h2, h3⟩

theorem resolveName_strip {fn : String} (hdot : '.' ∈ fn.data)
    (hlen : 4 < fn.length) :
    resolveName fn = some ⟨fn.data.take (fn.length - 4)⟩ := by
  simp [resolveName, hdot, hlen]

theorem resolveName_nodot {fn : String} (hdot : '.' ∉ fn.data) :
    resolveName fn = some fn := by
  simp [resolveName, hdot]

theorem resolveName_short {fn : String} (hdot : '.' ∈ fn.data)
    (hlen : ¬ 4 < fn.length) : resolveName fn = none := by
  simp [resolveName, hdot, hlen]

end Animations

namespace Animations

theorem lookupFile_map_frames {Img : Type} (imfp : String) (f : Nat → Img) :
    ∀ (l : List Nat) (j : Nat), l.Nodup → j ∈ l →
    lookupFile (l.map (fun i => (frameName imfp i, Content.png (f i))))
      (frameName imfp j) = some (Content.png (f j)) := by
  intro l
  induction l with
  | nil => intro j _ hj; cases hj
  | cons i rest ih =>
    intro j hnd hj
    rcases List.mem_cons.mp hj with rfl | hmem
    · simp [lookupFile]
    · have hne : frameName imfp i ≠ frameName imfp j := by
        intro hh
        exact (List.nodup_cons.mp hnd).1 (by rw [frameName_inj hh]; exact hmem)
      simp only [List.map_cons, lookupFile, if_neg hne]
      exact ih j (List.nodup_cons.mp hnd).2 hmem

theorem countP_png_frames {Img : Type} (imfp : String) (f : Nat → Img)
    (l : List Nat) :
    (l.map (fun i => (frameName imfp i, Content.png (f i)))).countP
      (fun e => match e.2 with | Content.png _ => true | _ => false)
      = l.length := by
  rw [List.countP_map]
  exact List.countP_eq_length.mpr (fun a _ => rfl)

theorem countP_gif_frames {Img : Type} (imfp : String) (f : Nat → Img)
    (l : List Nat) :
    (l.map (fun i => (frameName imfp i, Content.png (f i)))).countP
      (fun e => match e.2 with | Content.gif _ _ _ => true | _ => false)
      = 0 := by
  rw [List.countP_map]
  exact List.countP_eq_zero.mpr (fun a _ => by simp [Function.comp])

theorem data_globe_gif_success {Img St Cp Or Tm : Type}
    (auto_ortho : List St → Or) (f : DataGlobeCall St Cp Or Tm → Img)
    (ds : Dataset St Tm) (fp fn : String) (los : Option (List St))
    (loc : List Cp) (ot : Option Or) (dn col : Bool) (base : String)
    (hname : resolveName fn = some base) (hN : 1 ≤ ds.time.length) :
    (data_globe_gif auto_ortho (fun c => .ok (f c)) ds fp fn los loc ot dn col
      emptyFS).ret = .ok none ∧
    (∀ i, i < ds.time.length →
      lookupFile (data_globe_gif auto_ortho (fun c => .ok (f c)) ds fp fn los
        loc ot dn col emptyFS).fs.files (frameName (imDir fp) i) =
        some (.png (f (dataGlobeCall auto_ortho ds los loc ot dn col i)))) ∧
    (∀ i, ds.time.length ≤ i →
      lookupFile (data_globe_gif auto_ortho (fun c => .ok (f c)) ds fp fn los
        loc ot dn col emptyFS).fs.files (frameName (imDir fp) i) = none) ∧
    countPng (data_globe_gif auto_ortho (fun c => .ok (f c)) ds fp fn los loc
      ot dn col emptyFS).fs = ds.time.length ∧
    countGif (data_globe_gif auto_ortho (fun c => .ok (f c)) ds fp fn los loc
      ot dn col emptyFS).fs = 1 ∧
    lookupFile (data_globe_gif auto_ortho (fun c => .ok (f c)) ds fp fn los
      loc ot dn col emptyFS).fs.files (gifPath fp base) =
      some (.gif ((List.range ds.time.length).map
        (fun i => f (dataGlobeCall auto_ortho ds los loc ot dn col i))) 100 0) := by
  have key := pipeline_success fp fn true ds.time.length
    (fun i =>
      let c := dataGlobeCall auto_ortho ds los loc ot dn col i
      (c, (Except.ok (f c) : Except Unit Img).mapError
        (fun _ => Err.renderError i)))
    (fun i => f (dataGlobeCall auto_ortho ds los loc ot dn col i)) base emptyFS
    rfl hname (fun i _ => rfl) hN
  have hret : (data_globe_gif auto_ortho (fun c => .ok (f c)) ds fp fn los loc
      ot dn col emptyFS).ret = .ok none := key.1
  have hfiles : (data_globe_gif auto_ortho (fun c => .ok (f c)) ds fp fn los
      loc ot dn col emptyFS).fs.files =
      (gifPath fp base, Content.gif ((List.range ds.time.length).map
        (fun i => f (dataGlobeCall auto_ortho ds los loc ot dn col i))) 100 0) ::
      ((List.range ds.time.length).reverse.map
        (fun i => (frameName (imDir fp) i,
          Content.png (f (dataGlobeCall auto_ortho ds los loc ot dn col i))))) :=
    key.2.2
  have hgifne : ∀ i : Nat, gifPath fp base ≠ frameName (imDir fp) i :=
    fun i => (frameName_ne_gifPath (imDir fp) fp base i).symm
  refine ⟨hret, ?_, ?_, ?_, ?_, ?_⟩
  · intro i hi
    rw [hfiles]
    simp only [lookupFile, if_neg (hgifne i)]
    exact lookupFile_map_frames (imDir fp) _ (List.range ds.time.length).reverse i
      (List.nodup_reverse.mpr (List.nodup_range _))
      (List.mem_reverse.mpr (List.mem_range.mpr hi))
  · intro i hi
    rw [hfiles]
    simp only [lookupFile, if_neg (hgifne i)]
    refine lookupFile_none_of ?_
    intro e he
    rcases List.mem_map.mp he with ⟨j, hj, rfl⟩
    have hjn : j < ds.time.length := List.mem_range.mp (List.mem_reverse.mp hj)
    intro hh
    have := frameName_inj hh
    omega
  · rw [countPng, hfiles, List.countP_cons]
    simp only [countP_png_frames]
    simp
  · rw [countGif, hfiles, List.countP_cons]
    simp only [countP_gif_frames]
    simp
  · rw [hfiles]
    simp [lookupFile]

end Animations

namespace Animations

theorem pipeline_ok_steps {Img C : Type} {fp fn : String} {n : Nat}
    {step : Nat → C × Except Err Img} {fs0 : FS Img} {r : Option String}
    (h : (pipeline fp fn true n step fs0).ret = .ok r) :
    (∀ i, i < n → ∃ img, (step i).2 = .ok img) ∧
    (pipeline fp fn true n step fs0).calls =
      (List.range n).map (fun i => (step i).1) := by
  revert h
  simp only [pipeline]
  rcases hname : resolveName fn with _ | base <;> simp only [hname]
  · simp only [if_true]
    intro h
    cases h
  · rcases hl : frameLoop step (imDir fp) (List.range n)
        (ensureDir (ensureDir fs0 fp) (imDir fp)) with ⟨fs3, cs, out⟩
    cases out with
    | error e => simp only; intro h; cases h
    | ok names =>
      have hinv := frameLoop_ok_inv step (imDir fp) (List.range n)
        (ensureDir (ensureDir fs0 fp) (imDir fp)) names (by rw [hl])
      have hcalls : cs = (List.range n).map (fun i => (step i).1) := by
        have h2 := hinv.2
        rw [hl] at h2
        exact h2
      rcases he : encodeGif fs3 names (gifPath fp base) with ⟨fs4, r'⟩
      simp only [he]
      cases r' with
      | error e => simp only; intro h; cases h
      | ok u =>
        simp only
        intro h
        exact ⟨fun i hi => hinv.1 i (List.mem_range.mpr hi), hcalls⟩

theorem pipeline_err_ret {Img C : Type} (fp fn : String) (b : Bool) (n : Nat)
    (step : Nat → C × Except Err Img) (f : Nat → Img) (base : String)
    (fs0 : FS Img) (hname : resolveName fn = some base)
    {k : Nat} {e : Err} (hk : k < n)
    (hok : ∀ i, i < k → (step i).2 = .ok (f i))
    (herr : (step k).2 = .error e) :
    (pipeline fp fn b n step fs0).ret = .error e := by
  obtain ⟨m, rfl⟩ : ∃ m, n = k + (m + 1) := ⟨n - k - 1, by omega⟩
  have hsplit : List.range (k + (m + 1)) =
      List.range k ++ k :: ((List.range m).map (fun x => k + Nat.succ x)) := by
    rw [List.range_add k (m + 1), List.range_succ_eq_map, List.map_cons]
    simp
  have hloop := frameLoop_err_at step (imDir fp) f herr (List.range k)
    ((List.range m).map (fun x => k + Nat.succ x))
    (ensureDir (ensureDir fs0 fp) (imDir fp))
    (fun i hi => hok i (List.mem_range.mp hi))
  simp only [pipeline, hname]
  rw [hsplit, hloop]

end Animations

namespace Animations

/-- C1: for every dataset whose iteration axis has cardinality `N ≥ 1`, a
successful run of `data_globe_gif` (every renderer call succeeding) writes
exactly `N` frame image files named `0.png` through `(N-1).png` in
`<filepath>/images_for_giffing` and exactly one animation file, and the
animation contains exactly `N` frames where the frame at position `i` is
the image rendered for axis index `i`. -/
theorem c1_frames_and_animation {Img St Cp Or Tm : Type}
    (auto_ortho : List St → Or) (f : DataGlobeCall St Cp Or Tm → Img)
    (ds : Dataset St Tm) (fp fn : String) (los : Option (List St))
    (loc : List Cp) (ot : Option Or) (dn col : Bool) (base : String)
    (hname : resolveName fn = some base) (hN : 1 ≤ ds.time.length) :
    (data_globe_gif auto_ortho (fun c => .ok (f c)) ds fp fn los loc ot dn col
      emptyFS).ret = .ok none ∧
    (∀ i, i < ds.time.length →
      lookupFile (data_globe_gif auto_ortho (fun c => .ok (f c)) ds fp fn los
        loc ot dn col emptyFS).fs.files (frameName (imDir fp) i) =
        some (.png (f (dataGlobeCall auto_ortho ds los loc ot dn col i)))) ∧
    (∀ i, ds.time.length ≤ i →
      lookupFile (data_globe_gif auto_ortho (fun c => .ok (f c)) ds fp fn los
        loc ot dn col emptyFS).fs.files (frameName (imDir fp) i) = none) ∧
    countPng (data_globe_gif auto_ortho (fun c => .ok (f c)) ds fp fn los loc
      ot dn col emptyFS).fs = ds.time.length ∧
    countGif (data_globe_gif auto_ortho (fun c => .ok (f c)) ds fp fn los loc
      ot dn col emptyFS).fs = 1 ∧
    (∃ frames : List Img,
      lookupFile (data_globe_gif auto_ortho (fun c => .ok (f c)) ds fp fn los
        loc ot dn col emptyFS).fs.files (gifPath fp base) =
        some (.gif frames 100 0) ∧
      frames.length = ds.time.length ∧
      ∀ i, i < ds.time.length →
        frames[i]? = some (f (dataGlobeCall auto_ortho ds los loc ot dn col i))) := by
  obtain ⟨h1, h2, h3, h4, h5, h6⟩ := data_globe_gif_success auto_ortho f ds fp fn
    los loc ot dn col base hname hN
  refine ⟨h1, h2, h3, h4, h5,
    ⟨(List.range ds.time.length).map
      (fun i => f (dataGlobeCall auto_ortho ds los loc ot dn col i)), h6, ?_, ?_⟩⟩
  · simp
  · intro i hi
    simp [List.getElem?_map, List.getElem?_range, hi]

/-- C1 witness: a concrete two-frame run. -/
theorem c1_witness :
    (@data_globe_gif Nat Nat Nat Nat Nat (fun _ => 0) (fun c => .ok (c.t + 10))
      ⟨[1], [5, 6]⟩ "d" "g" none [0] none true false emptyFS).ret = .ok none ∧
    countPng (@data_globe_gif Nat Nat Nat Nat Nat (fun _ => 0) (fun c => .ok (c.t + 10))
      ⟨[1], [5, 6]⟩ "d" "g" none [0] none true false emptyFS).fs = 2 :=
  ⟨(c1_frames_and_animation (fun _ => 0) (fun c => c.t + 10) ⟨[1], [5, 6]⟩ "d"
      "g" none [0] none true false "g" (by decide) (by decide)).1,
   (c1_frames_and_animation (fun _ => 0) (fun c => c.t + 10) ⟨[1], [5, 6]⟩ "d"
      "g" none [0] none true false "g" (by decide) (by decide)).2.2.2.1⟩

/-- C3: if the renderer succeeds below index `k` and raises at index `k`
(`k < N`), `data_globe_gif` propagates the error to the caller and aborts:
frame files `0.png` through `(k-1).png` exist, no frame for any index
`≥ k` is written, and no animation file is written. -/
theorem c3_render_error_aborts {Img St Cp Or Tm : Type}
    (auto_ortho : List St → Or)
    (plot : DataGlobeCall St Cp Or Tm → Except Unit Img)
    (ds : Dataset St Tm) (fp fn : String) (los : Option (List St))
    (loc : List Cp) (ot : Option Or) (dn col : Bool) (base : String)
    (f : Nat → Img) (k : Nat)
    (hname : resolveName fn = some base) (hk : k < ds.time.length)
    (hok : ∀ i, i < k →
      plot (dataGlobeCall auto_ortho ds los loc ot dn col i) = .ok (f i))
    (herr : plot (dataGlobeCall auto_ortho ds los loc ot dn col k) = .error ()) :
    (data_globe_gif auto_ortho plot ds fp fn los loc ot dn col emptyFS).ret
      = .error (.renderError k) ∧
    (∀ i, i < k →
      lookupFile (data_globe_gif auto_ortho plot ds fp fn los loc ot dn col
        emptyFS).fs.files (frameName (imDir fp) i) = some (.png (f i))) ∧
    (∀ i, k ≤ i →
      lookupFile (data_globe_gif auto_ortho plot ds fp fn los loc ot dn col
        emptyFS).fs.files (frameName (imDir fp) i) = none) ∧
    countPng (data_globe_gif auto_ortho plot ds fp fn los loc ot dn col
      emptyFS).fs = k ∧
    countGif (data_globe_gif auto_ortho plot ds fp fn los loc ot dn col
      emptyFS).fs = 0 := by
  have key := pipeline_render_err fp fn true ds.time.length
    (fun i =>
      let c := dataGlobeCall auto_ortho ds los loc ot dn col i
      (c, (plot c).mapError (fun _ => Err.renderError i)))
    f base emptyFS rfl hname hk
    (fun i hi => by simp only; rw [hok i hi]; rfl)
    (by simp only; rw [herr]; rfl)
  have hret : (data_globe_gif auto_ortho plot ds fp fn los loc ot dn col
      emptyFS).ret = .error (.renderError k) := key.1
  have hfiles : (data_globe_gif auto_ortho plot ds fp fn los loc ot dn col
      emptyFS).fs.files =
      (List.range k).reverse.map
        (fun i => (frameName (imDir fp) i, Content.png (f i))) := key.2.2
  refine ⟨hret, ?_, ?_, ?_, ?_⟩
  · intro i hi
    rw [hfiles]
    exact lookupFile_map_frames (imDir fp) f (List.range k).reverse i
      (List.nodup_reverse.mpr (List.nodup_range _))
      (List.mem_reverse.mpr (List.mem_range.mpr hi))
  · intro i hi
    rw [hfiles]
    refine lookupFile_none_of ?_
    intro e he
    rcases List.mem_map.mp he with ⟨j, hj, rfl⟩
    have hjn : j < k := List.mem_range.mp (List.mem_reverse.mp hj)
    intro hh
    have := frameName_inj hh
    omega
  · rw [countPng, hfiles, countP_png_frames]
    simp
  · rw [countGif, hfiles, countP_gif_frames]

/-- C3 witness: renderer that fails at index 0 of a one-frame dataset. -/
theorem c3_witness :
    (@data_globe_gif Nat Nat Nat Nat Nat (fun _ => 0) (fun _ => .error ())
      ⟨[1], [5]⟩ "d" "g" none [0] none true false emptyFS).ret
      = .error (.renderError 0) ∧
    countGif (@data_globe_gif Nat Nat Nat Nat Nat (fun _ => 0) (fun _ => .error ())
      ⟨[1], [5]⟩ "d" "g" none [0] none true false emptyFS).fs = 0 :=
  ⟨(c3_render_error_aborts (fun _ => 0) (fun _ => .error ()) ⟨[1], [5]⟩ "d" "g"
      none [0] none true false "g" (fun _ => 0) 0 (by decide) (by decide)
      (fun i hi => absurd hi (by omega)) rfl).1,
   (c3_render_error_aborts (fun _ => 0) (fun _ => .error ()) ⟨[1], [5]⟩ "d" "g"
      none [0] none true false "g" (fun _ => 0) 0 (by decide) (by decide)
      (fun i hi => absurd hi (by omega)) rfl).2.2.2.2⟩

end Animations

namespace Animations

/-- C4: when the iteration axis has cardinality zero, the encoding step of
`data_globe_gif` fails (the `IndexError` of `images[0]`, the spec's
`EmptyAnimation`) and no file of any kind is written. -/
theorem c4_zero_frames {Img St Cp Or Tm : Type}
    (auto_ortho : List St → Or)
    (plot : DataGlobeCall St Cp Or Tm → Except Unit Img)
    (ds : Dataset St Tm) (fp fn : String) (los : Option (List St))
    (loc : List Cp) (ot : Option Or) (dn col : Bool) (fs0 : FS Img)
    (base : String)
    (hname : resolveName fn = some base) (htime : ds.time.length = 0) :
    (data_globe_gif auto_ortho plot ds fp fn los loc ot dn col fs0).ret
      = .error .emptyAnimation ∧
    (data_globe_gif auto_ortho plot ds fp fn los loc ot dn col fs0).fs.files
      = fs0.files := by
  have key : data_globe_gif auto_ortho plot ds fp fn los loc ot dn col fs0 =
      ⟨ensureDir (ensureDir fs0 fp) (imDir fp), [], .error .emptyAnimation⟩ := by
    unfold data_globe_gif
    rw [htime]
    exact pipeline_empty fp fn true _ base fs0 hname
  rw [key]
  exact ⟨rfl, by rw [ensureDir_files, ensureDir_files]⟩

/-- C4 witness: a dataset with an empty time axis. -/
theorem c4_witness :
    (@data_globe_gif Nat Nat Nat Nat Nat (fun _ => 0) (fun c => .ok c.t)
      (⟨[1], []⟩ : Dataset Nat Nat) "d" "g" none [0] none true false
      emptyFS).ret = .error .emptyAnimation ∧
    (@data_globe_gif Nat Nat Nat Nat Nat (fun _ => 0) (fun c => .ok c.t)
      (⟨[1], []⟩ : Dataset Nat Nat) "d" "g" none [0] none true false
      emptyFS).fs.files = [] :=
  c4_zero_frames (fun _ => 0) (fun c => .ok c.t) ⟨[1], []⟩ "d" "g" none [0]
    none true false emptyFS "g" (by decide) (by decide)

/-- C5: a filename containing a dot with length strictly greater than 4 is
accepted and the base name is the filename with exactly its trailing four
characters removed, the animation landing at `<filepath>/<stripped>.gif`;
a filename with no dot is used verbatim. -/
theorem c5_extension_stripping {Img St Cp Or Tm : Type}
    (auto_ortho : List St → Or) (f : DataGlobeCall St Cp Or Tm → Img)
    (ds : Dataset St Tm) (fp fn : String) (los : Option (List St))
    (loc : List Cp) (ot : Option Or) (dn col : Bool)
    (hN : 1 ≤ ds.time.length) :
    ('.' ∈ fn.data → 4 < fn.length →
      (data_globe_gif auto_ortho (fun c => .ok (f c)) ds fp fn los loc ot dn
        col emptyFS).ret = .ok none ∧
      lookupFile (data_globe_gif auto_ortho (fun c => .ok (f c)) ds fp fn los
        loc ot dn col emptyFS).fs.files
        (gifPath fp ⟨fn.data.take (fn.length - 4)⟩) =
        some (.gif ((List.range ds.time.length).map
          (fun i => f (dataGlobeCall auto_ortho ds los loc ot dn col i)))
          100 0)) ∧
    ('.' ∉ fn.data →
      (data_globe_gif auto_ortho (fun c => .ok (f c)) ds fp fn los loc ot dn
        col emptyFS).ret = .ok none ∧
      lookupFile (data_globe_gif auto_ortho (fun c => .ok (f c)) ds fp fn los
        loc ot dn col emptyFS).fs.files (gifPath fp fn) =
        some (.gif ((List.range ds.time.length).map
          (fun i => f (dataGlobeCall auto_ortho ds los loc ot dn col i)))
          100 0)) := by
  constructor
  · intro hdot hlen
    obtain ⟨h1, _, _, _, _, h6⟩ := data_globe_gif_success auto_ortho f ds fp fn
      los loc ot dn col ⟨fn.data.take (fn.length - 4)⟩
      (resolveName_strip hdot hlen) hN
    exact ⟨h1, h6⟩
  · intro hdot
    obtain ⟨h1, _, _, _, _, h6⟩ := data_globe_gif_success auto_ortho f ds fp fn
      los loc ot dn col fn (resolveName_nodot hdot) hN
    exact ⟨h1, h6⟩

/-- C5 witness: `"globe.v2"` (dot, length 8) is stripped to `"glob"`, and
`"plain"` (no dot) is used verbatim. -/
theorem c5_witness :
    ((@data_globe_gif Nat Nat Nat Nat Nat (fun _ => 0) (fun c => .ok c.t)
      (⟨[1], [5]⟩ : Dataset Nat Nat) "d" "globe.v2" none [0] none true false
      emptyFS).ret = .ok none ∧
     lookupFile (@data_globe_gif Nat Nat Nat Nat Nat (fun _ => 0) (fun c => .ok c.t)
      (⟨[1], [5]⟩ : Dataset Nat Nat) "d" "globe.v2" none [0] none true false
      emptyFS).fs.files (gifPath "d" ⟨"globe.v2".data.take 4⟩) =
      some (.gif [0] 100 0)) ∧
    ((@data_globe_gif Nat Nat Nat Nat Nat (fun _ => 0) (fun c => .ok c.t)
      (⟨[1], [5]⟩ : Dataset Nat Nat) "d" "plain" none [0] none true false
      emptyFS).ret = .ok none ∧
     lookupFile (@data_globe_gif Nat Nat Nat Nat Nat (fun _ => 0) (fun c => .ok c.t)
      (⟨[1], [5]⟩ : Dataset Nat Nat) "d" "plain" none [0] none true false
      emptyFS).fs.files (gifPath "d" "plain") = some (.gif [0] 100 0)) :=
  ⟨(c5_extension_stripping (fun _ => 0) (fun c => c.t) ⟨[1], [5]⟩ "d"
      "globe.v2" none [0] none true false (by decide)).1 (by decide) (by decide),
   (c5_extension_stripping (fun _ => 0) (fun c => c.t) ⟨[1], [5]⟩ "d"
      "plain" none [0] none true false (by decide)).2 (by decide)⟩

end Animations

namespace Animations

/-- C2: at the extension-only filename `".gif"`, `connections_globe_gif`
does not raise: it completes normally, returning the error message string,
and writes no file — while `data_globe_gif` at the same filename does raise
the `ValueError` (`InvalidName`).  The claim that all six entry points
raise is therefore violated by `connections_globe_gif`. -/
theorem c2_connections_no_raise :
    (@connections_globe_gif Nat Nat Nat Nat Nat (fun _ => 0) (fun _ _ _ _ _ => .ok 0)
      ⟨[1], [2], fun _ => 0⟩ "p" ".gif" none true emptyFS).ret
      = .ok (some errMsg) ∧
    (@connections_globe_gif Nat Nat Nat Nat Nat (fun _ => 0) (fun _ _ _ _ _ => .ok 0)
      ⟨[1], [2], fun _ => 0⟩ "p" ".gif" none true emptyFS).fs.files = [] ∧
    (@data_globe_gif Nat Nat Nat Nat Nat (fun _ => 0) (fun c => .ok c.t)
      (⟨[1], [5]⟩ : Dataset Nat Nat) "p" ".gif" none [0] none true false
      emptyFS).ret = .error .invalidName := by
  refine ⟨?_, ?_, ?_⟩ <;> decide

/-- C6: every GIF file written by any of the six entry points is encoded
with per-frame duration 100 and loop count 0. -/
theorem c6_duration_and_loop :
    (∀ (Img St Cp Or Tm : Type) (auto_ortho : List St → Or)
      (plot : DataGlobeCall St Cp Or Tm → Except Unit Img) (ds : Dataset St Tm)
      (fp fn : String) (los : Option (List St)) (loc : List Cp)
      (ot : Option Or) (dn col : Bool) (fs0 : FS Img),
      gifsLoopForever fs0 →
      gifsLoopForever (data_globe_gif auto_ortho plot ds fp fn los loc ot dn
        col fs0).fs) ∧
    (∀ (Img St W Or A : Type) (auto_ortho : List St → Or)
      (plot : A → List St → Option W → Or → Bool → Except Unit Img)
      (adj_mat_ds : AdjDataset St W A) (fp fn : String) (ot : Option Or)
      (dn : Bool) (fs0 : FS Img),
      gifsLoopForever fs0 →
      gifsLoopForever (connections_globe_gif auto_ortho plot adj_mat_ds fp fn
        ot dn fs0).fs) ∧
    (∀ (Img Tw Lg W Slc : Type) (plot : Slc → Except Unit Img)
      (lag_ds : LagDataset Tw Lg W Slc) (fp fn : String) (fs0 : FS Img),
      gifsLoopForever fs0 →
      gifsLoopForever (lag_mat_gif_time plot lag_ds fp fn fs0).fs) ∧
    (∀ (Img W Slc : Type) (plot : Slc → Except Unit Img)
      (adj_matrix_ds : WinStartDataset W Slc) (fp fn : String) (fs0 : FS Img),
      gifsLoopForever fs0 →
      gifsLoopForever (lag_network_gif plot adj_matrix_ds fp fn fs0).fs) ∧
    (∀ (Img W Slc : Type) (plot : Slc → Except Unit Img)
      (corr_thresh_ds : WinStartDataset W Slc) (fp fn : String) (fs0 : FS Img),
      gifsLoopForever fs0 →
      gifsLoopForever (corr_thresh_gif plot corr_thresh_ds fp fn fs0).fs) ∧
    (∀ (Img Tm Slc AB : Type) (plot : Slc → AB → Except Unit Img)
      (cca_ang_ds : TimeDataset Tm Slc) (a_b : AB) (fp fn : String)
      (fs0 : FS Img),
      gifsLoopForever fs0 →
      gifsLoopForever (cca_ang_gif plot cca_ang_ds a_b fp fn fs0).fs) := by
  refine ⟨?_, ?_, ?_, ?_, ?_, ?_⟩ <;>
    (intros; exact pipeline_gif_inv _ _ _ _ _ _ (by assumption))

/-- C6 witness: concrete runs of all six entry points from the empty
filesystem. -/
theorem c6_witness :
    gifsLoopForever (@data_globe_gif Nat Nat Nat Nat Nat (fun _ => 0)
      (fun c => .ok c.t) (⟨[1], [5]⟩ : Dataset Nat Nat) "d" "g" none [0] none
      true false emptyFS).fs ∧
    gifsLoopForever (@connections_globe_gif Nat Nat Nat Nat Nat (fun _ => 0)
      (fun _ _ _ _ _ => .ok 7) ⟨[1], [2], fun _ => 0⟩ "p" "g" none true
      emptyFS).fs ∧
    gifsLoopForever (@cca_ang_gif Nat Nat Nat Nat (fun s _ => .ok s)
      (⟨[3], fun i => i⟩ : TimeDataset Nat Nat) 0 "p" "g" emptyFS).fs :=
  have h0 : gifsLoopForever (@emptyFS Nat) :=
    fun _ _ _ _ h => absurd h (List.not_mem_nil _)
  ⟨c6_duration_and_loop.1 Nat Nat Nat Nat Nat (fun _ => 0) (fun c => .ok c.t)
      ⟨[1], [5]⟩ "d" "g" none [0] none true false emptyFS h0,
   c6_duration_and_loop.2.1 Nat Nat Nat Nat Nat (fun _ => 0)
      (fun _ _ _ _ _ => .ok 7) ⟨[1], [2], fun _ => 0⟩ "p" "g" none true
      emptyFS h0,
   c6_duration_and_loop.2.2.2.2.2 Nat Nat Nat Nat (fun s _ => .ok s)
      ⟨[3], fun i => i⟩ 0 "p" "g" emptyFS h0⟩

/-- C7: directory resolution is idempotent for `data_globe_gif`: both the
output directory and the scratch subdirectory exist after a run (created
when absent), a second run against the first run's filesystem creates no
further directory, and the outcome never depends on which directories
already existed. -/
theorem c7_directory_idempotence {Img St Cp Or Tm : Type}
    (auto_ortho : List St → Or)
    (plot : DataGlobeCall St Cp Or Tm → Except Unit Img)
    (ds : Dataset St Tm) (fp fn : String) (los : Option (List St))
    (loc : List Cp) (ot : Option Or) (dn col : Bool) (fs0 : FS Img) :
    fp ∈ (data_globe_gif auto_ortho plot ds fp fn los loc ot dn col
      fs0).fs.dirs ∧
    imDir fp ∈ (data_globe_gif auto_ortho plot ds fp fn los loc ot dn col
      fs0).fs.dirs ∧
    (data_globe_gif auto_ortho plot ds fp fn los loc ot dn col
      (data_globe_gif auto_ortho plot ds fp fn los loc ot dn col
        fs0).fs).fs.dirs =
      (data_globe_gif auto_ortho plot ds fp fn los loc ot dn col
        fs0).fs.dirs ∧
    (∀ d1 : List String,
      (data_globe_gif auto_ortho plot ds fp fn los loc ot dn col
        ⟨d1, fs0.files⟩).ret =
      (data_globe_gif auto_ortho plot ds fp fn los loc ot dn col fs0).ret) := by
  have hdir : (data_globe_gif auto_ortho plot ds fp fn los loc ot dn col
      fs0).fs.dirs = (ensureDir (ensureDir fs0 fp) (imDir fp)).dirs :=
    pipeline_dirs fp fn true ds.time.length _ fs0
  have hfp : fp ∈ (data_globe_gif auto_ortho plot ds fp fn los loc ot dn col
      fs0).fs.dirs := by
    rw [hdir]
    exact ensureDir_dirs_mono (imDir fp) (ensureDir_mem fs0 fp)
  have him : imDir fp ∈ (data_globe_gif auto_ortho plot ds fp fn los loc ot dn
      col fs0).fs.dirs := by
    rw [hdir]
    exact ensureDir_mem _ (imDir fp)
  refine ⟨hfp, him, ?_, ?_⟩
  · have hdir2 : (data_globe_gif auto_ortho plot ds fp fn los loc ot dn col
        (data_globe_gif auto_ortho plot ds fp fn los loc ot dn col
          fs0).fs).fs.dirs =
        (ensureDir (ensureDir (data_globe_gif auto_ortho plot ds fp fn los loc
          ot dn col fs0).fs fp) (imDir fp)).dirs :=
      pipeline_dirs fp fn true ds.time.length _ _
    rw [hdir2, ensureDir_of_mem hfp, ensureDir_of_mem him]
  · intro d1
    exact (pipeline_congr fp fn true ds.time.length _ ⟨d1, fs0.files⟩ fs0
      rfl).2.2

end Animations

namespace Animations

/-- C8: in `data_globe_gif`, when no orientation is supplied the
orientation of every render call is `auto_ortho` of the station list in
effect, and when no station subset is supplied the station list used for
the orientation default and for every render call is the dataset's full
station list. -/
theorem c8_derived_defaults {Img St Cp Or Tm : Type}
    (auto_ortho : List St → Or)
    (plot : DataGlobeCall St Cp Or Tm → Except Unit Img)
    (ds : Dataset St Tm) (fp fn : String) (loc : List Cp)
    (dn col : Bool) (fs0 : FS Img) :
    (∀ (los : Option (List St)) (c : DataGlobeCall St Cp Or Tm),
      c ∈ (data_globe_gif auto_ortho plot ds fp fn los loc none dn col
        fs0).calls →
      c.ortho_trans = auto_ortho (los.getD ds.station) ∧
      c.list_of_stations = los.getD ds.station) ∧
    (∀ (ot : Option Or) (c : DataGlobeCall St Cp Or Tm),
      c ∈ (data_globe_gif auto_ortho plot ds fp fn none loc ot dn col
        fs0).calls →
      c.list_of_stations = ds.station ∧
      c.ortho_trans = ot.getD (auto_ortho ds.station)) := by
  constructor
  · intro los c hc
    obtain ⟨i, hi, rfl⟩ := pipeline_calls_mem (by exact hc)
    exact ⟨rfl, rfl⟩
  · intro ot c hc
    obtain ⟨i, hi, rfl⟩ := pipeline_calls_mem (by exact hc)
    exact ⟨rfl, rfl⟩

/-- C8 witness: a concrete one-frame run with both defaults in effect. -/
theorem c8_witness :
    (⟨⟨[1], [5]⟩, [1], [0], 0, 9, true, false⟩ : DataGlobeCall Nat Nat Nat Nat)
      ∈ (@data_globe_gif Nat Nat Nat Nat Nat (fun _ => 9) (fun c => .ok c.t)
        (⟨[1], [5]⟩ : Dataset Nat Nat) "d" "g" none [0] none true false
        emptyFS).calls ∧
    (⟨⟨[1], [5]⟩, [1], [0], 0, 9, true, false⟩ : DataGlobeCall Nat Nat Nat
        Nat).ortho_trans = (fun _ : List Nat => 9) ((none : Option (List Nat)).getD
        (⟨[1], [5]⟩ : Dataset Nat Nat).station) :=
  ⟨by decide,
   ((c8_derived_defaults (fun _ => 9) (fun c => .ok c.t) ⟨[1], [5]⟩ "d" "g"
      [0] true false emptyFS).1 none
      ⟨⟨[1], [5]⟩, [1], [0], 0, 9, true, false⟩ (by decide)).1⟩

/-- C9: `lag_mat_gif_time` renders one frame per `time_win` index `i`, each
frame's slice fixing `time_win = i, lag = 0, win_start = i`; it can succeed
only when the `win_start` axis is at least as long as the `time_win` axis,
and with a total renderer it fails with the slicing `IndexError` otherwise. -/
theorem c9_lag_mat_time_diagonal {Img Tw Lg W Slc : Type}
    (plot : Slc → Except Unit Img) (lag_ds : LagDataset Tw Lg W Slc)
    (fp fn : String) (fs0 : FS Img) :
    (∀ r : Option String,
      (lag_mat_gif_time plot lag_ds fp fn fs0).ret = .ok r →
      (lag_mat_gif_time plot lag_ds fp fn fs0).calls =
        (List.range lag_ds.time_win.length).map (fun i => (i, 0, i)) ∧
      lag_ds.time_win.length ≤ lag_ds.win_start.length) ∧
    (∀ (f0 : Slc → Img) (base : String),
      resolveName fn = some base →
      (∀ s, plot s = .ok (f0 s)) →
      lag_ds.win_start.length < lag_ds.time_win.length →
      (lag_mat_gif_time plot lag_ds fp fn fs0).ret = .error .indexError) := by
  constructor
  · intro r h
    obtain ⟨hsteps, hcalls⟩ := pipeline_ok_steps (by exact h)
    refine ⟨hcalls, ?_⟩
    by_cases hN : lag_ds.time_win.length = 0
    · omega
    · by_contra hlt
      obtain ⟨img, himg⟩ := hsteps (lag_ds.time_win.length - 1) (by omega)
      simp only at himg
      have hisel : lag_ds.isel (lag_ds.time_win.length - 1) 0
          (lag_ds.time_win.length - 1) = .error .indexError := by
        unfold LagDataset.isel
        exact if_neg (fun hh => absurd hh.2.2 (by omega))
      rw [hisel] at himg
      cases himg
  · intro f0 base hname htot hlt
    by_cases hlag : lag_ds.lag.length = 0
    · have herr0 : ((fun i => (((i : Nat), 0, i),
          match lag_ds.isel i 0 i with
          | .error e => Except.error e
          | .ok lm => (plot lm).mapError (fun _ => Err.renderError i))) 0).2
          = Except.error Err.indexError := by
        simp only
        have hisel : lag_ds.isel 0 0 0 = .error .indexError := by
          unfold LagDataset.isel
          exact if_neg (fun hh => absurd hh.2.1 (by omega))
        rw [hisel]
      exact pipeline_err_ret fp fn true lag_ds.time_win.length _
        (fun i => f0 (lag_ds.slice i 0 i)) base fs0 hname (by omega)
        (fun i hi => absurd hi (by omega)) herr0
    · have hok : ∀ i, i < lag_ds.win_start.length →
          ((fun i => (((i : Nat), 0, i),
            match lag_ds.isel i 0 i with
            | .error e => Except.error e
            | .ok lm => (plot lm).mapError (fun _ => Err.renderError i))) i).2
          = Except.ok (f0 (lag_ds.slice i 0 i)) := by
        intro i hi
        simp only
        have hisel : lag_ds.isel i 0 i = .ok (lag_ds.slice i 0 i) := by
          unfold LagDataset.isel
          exact if_pos ⟨by omega, by omega, hi⟩
        rw [hisel]
        simp only
        rw [htot (lag_ds.slice i 0 i)]
        rfl
      have herrW : ((fun i => (((i : Nat), 0, i),
          match lag_ds.isel i 0 i with
          | .error e => Except.error e
          | .ok lm => (plot lm).mapError (fun _ => Err.renderError i)))
            lag_ds.win_start.length).2
          = Except.error Err.indexError := by
        simp only
        have hisel : lag_ds.isel lag_ds.win_start.length 0
            lag_ds.win_start.length = .error .indexError := by
          unfold LagDataset.isel
          exact if_neg (fun hh => absurd hh.2.2 (by omega))
        rw [hisel]
      exact pipeline_err_ret fp fn true lag_ds.time_win.length _
        (fun i => f0 (lag_ds.slice i 0 i)) base fs0 hname hlt hok herrW

/-- C9 witness: a two-window dataset succeeding on the diagonal, and a
dataset whose `win_start` axis is too short failing on indexing. -/
theorem c9_witness :
    ((@lag_mat_gif_time Nat Nat Nat Nat Nat (fun s => .ok s)
      (⟨[10, 20], [0], [5, 6], fun i j k => i + j + k⟩ :
        LagDataset Nat Nat Nat Nat) "p" "g" emptyFS).calls =
      (List.range 2).map (fun i => (i, 0, i)) ∧
      (2 : Nat) ≤ 2) ∧
    (@lag_mat_gif_time Nat Nat Nat Nat Nat (fun s => .ok s)
      (⟨[10, 20], [0], [5], fun i j k => i + j + k⟩ :
        LagDataset Nat Nat Nat Nat) "p" "g" emptyFS).ret
      = .error .indexError :=
  ⟨(c9_lag_mat_time_diagonal (fun s => .ok s)
      ⟨[10, 20], [0], [5, 6], fun i j k => i + j + k⟩ "p" "g" emptyFS).1
      none (by decide),
   (c9_lag_mat_time_diagonal (fun s => .ok s)
      ⟨[10, 20], [0], [5], fun i j k => i + j + k⟩ "p" "g" emptyFS).2
      (fun s => s) "g" (by decide) (fun s => rfl) (by decide)⟩

end Animations

namespace Animations

/-- C10: on successful completion each of the six entry points returns
`None` — the frame and animation paths are never returned to the caller
(for `connections_globe_gif` this holds whenever the filename validates;
its bad-name path returns the error message string instead). -/
theorem c10_success_returns_none :
    (∀ (Img St Cp Or Tm : Type) (auto_ortho : List St → Or)
      (plot : DataGlobeCall St Cp Or Tm → Except Unit Img) (ds : Dataset St Tm)
      (fp fn : String) (los : Option (List St)) (loc : List Cp)
      (ot : Option Or) (dn col : Bool) (fs0 : FS Img) (r : Option String),
      (data_globe_gif auto_ortho plot ds fp fn los loc ot dn col fs0).ret
        = .ok r → r = none) ∧
    (∀ (Img St W Or A : Type) (auto_ortho : List St → Or)
      (plot : A → List St → Option W → Or → Bool → Except Unit Img)
      (adj_mat_ds : AdjDataset St W A) (fp fn : String) (ot : Option Or)
      (dn : Bool) (fs0 : FS Img) (base : String) (r : Option String),
      resolveName fn = some base →
      (connections_globe_gif auto_ortho plot adj_mat_ds fp fn ot dn fs0).ret
        = .ok r → r = none) ∧
    (∀ (Img Tw Lg W Slc : Type) (plot : Slc → Except Unit Img)
      (lag_ds : LagDataset Tw Lg W Slc) (fp fn : String) (fs0 : FS Img)
      (r : Option String),
      (lag_mat_gif_time plot lag_ds fp fn fs0).ret = .ok r → r = none) ∧
    (∀ (Img W Slc : Type) (plot : Slc → Except Unit Img)
      (adj_matrix_ds : WinStartDataset W Slc) (fp fn : String) (fs0 : FS Img)
      (r : Option String),
      (lag_network_gif plot adj_matrix_ds fp fn fs0).ret = .ok r → r = none) ∧
    (∀ (Img W Slc : Type) (plot : Slc → Except Unit Img)
      (corr_thresh_ds : WinStartDataset W Slc) (fp fn : String) (fs0 : FS Img)
      (r : Option String),
      (corr_thresh_gif plot corr_thresh_ds fp fn fs0).ret = .ok r → r = none) ∧
    (∀ (Img Tm Slc AB : Type) (plot : Slc → AB → Except Unit Img)
      (cca_ang_ds : TimeDataset Tm Slc) (a_b : AB) (fp fn : String)
      (fs0 : FS Img) (r : Option String),
      (cca_ang_gif plot cca_ang_ds a_b fp fn fs0).ret = .ok r → r = none) := by
  refine ⟨?_, ?_, ?_, ?_, ?_, ?_⟩
  · intro Img St Cp Or Tm auto_ortho plot ds fp fn los loc ot dn col fs0 r h
    rcases pipeline_ret_ok (by exact h) with h1 | ⟨hb, _, _⟩
    · exact h1
    · cases hb
  · intro Img St W Or A auto_ortho plot adj fp fn ot dn fs0 base r hname h
    rcases pipeline_ret_ok (by exact h) with h1 | ⟨_, hnone, _⟩
    · exact h1
    · rw [hname] at hnone
      cases hnone
  · intro Img Tw Lg W Slc plot lag_ds fp fn fs0 r h
    rcases pipeline_ret_ok (by exact h) with h1 | ⟨hb, _, _⟩
    · exact h1
    · cases hb
  · intro Img W Slc plot dsw fp fn fs0 r h
    rcases pipeline_ret_ok (by exact h) with h1 | ⟨hb, _, _⟩
    · exact h1
    · cases hb
  · intro Img W Slc plot dsw fp fn fs0 r h
    rcases pipeline_ret_ok (by exact h) with h1 | ⟨hb, _, _⟩
    · exact h1
    · cases hb
  · intro Img Tm Slc AB plot dst a_b fp fn fs0 r h
    rcases pipeline_ret_ok (by exact h) with h1 | ⟨hb, _, _⟩
    · exact h1
    · cases hb

/-- C10 witness: a concrete successful run returns `None`. -/
theorem c10_witness :
    (@data_globe_gif Nat Nat Nat Nat Nat (fun _ => 0) (fun c => .ok c.t)
      (⟨[1], [5]⟩ : Dataset Nat Nat) "d" "g" none [0] none true false
      emptyFS).ret = .ok none ∧
    (none : Option String) = none :=
  ⟨by decide,
   c10_success_returns_none.1 Nat Nat Nat Nat Nat (fun _ => 0)
     (fun c => .ok c.t) ⟨[1], [5]⟩ "d" "g" none [0] none true false emptyFS
     none (by decide)⟩

end Animations
